/- Verification of the phase-wise trailing-stop-loss engine of this repository
   (src/tsl_manager_fixed.py, with src/config.py supplying MANAGEMENT_CONFIG).
   Prices and timestamps are embedded as rationals; the engine object's mutable
   attributes become an explicit state record, and one iteration of the
   management loop becomes a pure step function from state and tick input to
   state, emitted order/log events, and a loop signal. -/
import Mathlib

namespace Microscalper

/-- `TradePhase` string constants of the source (`MICRO`, `SPIKE`, `ATR`). -/
inductive TradePhase
  | MICRO
  | SPIKE
  | ATR
deriving DecidableEq, Repr

/-- One entry of `self.price_history`: the dict
`\x7b"price": float, "time": float, "phase": str\x7d`. -/
structure PricePoint where
  price : ℚ
  time : ℚ
  phase : TradePhase
deriving DecidableEq, Repr

/-- The fields of `models.Position` that the TSL manager reads or writes. -/
structure Position where
  symbol : String
  qty : ℤ
  entry_price : ℚ
  direction : String
  current_price : ℚ
  tsl : ℚ
  phase : TradePhase
  is_active : Bool
deriving DecidableEq, Repr

/-- The numeric keys of `config.MANAGEMENT_CONFIG` that `tsl_manager_fixed.py`
reads through `self.config.get(key, default)`. -/
structure Config where
  phase1_max_trail : ℤ
  phase1_trail_step : ℤ
  phase2_spike_window : ℚ
  phase2_spike_multiplier : ℚ
  phase2_min_spike_points : ℕ
  phase3_atr_period : ℕ
  phase3_atr_multiplier : ℚ
  phase3_min_price_points : ℕ
  phase1_to_phase3_threshold : ℚ
  min_phase1_duration : ℚ
  emergency_exit_threshold : ℚ
  min_profit_to_trail : ℚ
deriving DecidableEq, Repr

/-- The values written in the `MANAGEMENT_CONFIG` dict literal of
src/config.py (lines 44-65). -/
def MANAGEMENT_CONFIG : Config where
  phase1_max_trail := 5
  phase1_trail_step := 1
  phase2_spike_window := 2
  phase2_spike_multiplier := 3
  phase2_min_spike_points := 3
  phase3_atr_period := 14
  phase3_atr_multiplier := 1
  phase3_min_price_points := 10
  phase1_to_phase3_threshold := 1/100
  min_phase1_duration := 10
  emergency_exit_threshold := 5
  min_profit_to_trail := 1/2

/-- The key strings present in the `MANAGEMENT_CONFIG` dict literal of
src/config.py.  (The literal is missing its closing brace in the source and
defines no further keys; in particular there is no `max_hold_time` key.) -/
def managementConfigKeys : List String :=
  ["phase1_max_trail", "phase1_trail_step",
   "phase2_spike_window", "phase2_spike_multiplier", "phase2_min_spike_points",
   "phase3_atr_period", "phase3_atr_multiplier", "phase3_min_price_points",
   "phase1_to_phase3_threshold", "min_phase1_duration",
   "emergency_exit_threshold", "min_profit_to_trail"]

/-- The mutable attributes of a `TSLManagerFixed` instance together with the
managed `Position`.  `attached = true` models `self.active_position` holding a
reference to `pos`; `attached = false` models `self.active_position = None`
(the `Position` object itself lives on at the host, so its fields stay). -/
structure TSLManagerFixed where
  pos : Position
  attached : Bool
  is_running : Bool
  current_phase : TradePhase
  price_history : List PricePoint
  entry_price : ℚ
  highest_price : ℚ
  current_trail_level : ℤ
  spike_detected : Bool
  atr_value : ℚ
  atr_calculated : Bool
  phase_start_time : ℚ
  position_start_time : ℚ
deriving DecidableEq, Repr

/-- `_record_price`: append the sample, then keep only the last 100 entries. -/
def pushPrice (h : List PricePoint) (price : ℚ) (ph : TradePhase) (t : ℚ) :
    List PricePoint :=
  let h2 := h ++ [⟨price, t, ph⟩]
  if 100 < h2.length then h2.drop (h2.length - 100) else h2

/-- Python `int()` applied to a float/rational: truncation toward zero. -/
def pyInt (q : ℚ) : ℤ := if 0 ≤ q then ⌊q⌋ else ⌈q⌉

/-- `start_management` on a fresh manager (the success path: no position is
under management yet), started at time `t`. -/
def start_management (p : Position) (t : ℚ) : TSLManagerFixed where
  pos := { p with tsl := p.entry_price, phase := .MICRO }
  attached := true
  is_running := true
  current_phase := .MICRO
  price_history := pushPrice [] p.entry_price .MICRO t
  entry_price := p.entry_price
  highest_price := p.entry_price
  current_trail_level := 0
  spike_detected := false
  atr_value := 0
  atr_calculated := false
  phase_start_time := t
  position_start_time := t

/-- Absolute differences of adjacent elements, in list order: the
`price_changes` loop of `_detect_spike`. -/
def adjAbsDiffs : List ℚ → List ℚ
  | a :: b :: t => |b - a| :: adjAbsDiffs (b :: t)
  | _ => []

/-- Python `max` over a nonempty list (0 for the empty list, never used). -/
def listMax : List ℚ → ℚ
  | [] => 0
  | x :: t => t.foldl max x

/-- Python `min` over a nonempty list (0 for the empty list, never used). -/
def listMin : List ℚ → ℚ
  | [] => 0
  | x :: t => t.foldl min x

/-- `_apply_micro_trailing`: the +1/+2/+3/+4/+5 stair-step rule. -/
def apply_micro_trailing (cfg : Config) (s : TSLManagerFixed) (price : ℚ) :
    TSLManagerFixed :=
  let profit := price - s.entry_price
  if profit < cfg.min_profit_to_trail then s
  else
    let points_up := pyInt profit
    let max_trail := cfg.phase1_max_trail
    if 1 ≤ points_up ∧ points_up ≤ max_trail then
      let new_tsl := s.entry_price + ((points_up - 1 : ℤ) : ℚ)
      if s.pos.tsl < new_tsl then
        { s with pos := { s.pos with tsl := new_tsl },
                 current_trail_level := points_up }
      else s
    else if max_trail < points_up then
      let locked_tsl := s.entry_price + ((max_trail - 1 : ℤ) : ℚ)
      if s.pos.tsl < locked_tsl then
        { s with pos := { s.pos with tsl := locked_tsl } }
      else s
    else s

/-- `_detect_spike` over a price history.  `recent` walks the history newest
first and stops at the first sample older than the spike window; when called
from the loop the current tick's sample is already the last history entry. -/
def detect_spike (cfg : Config) (hist : List PricePoint)
    (current_price current_time : ℚ) : Bool :=
  if hist.length < 4 then false
  else
    let recent := (hist.reverse.takeWhile fun pp =>
      decide (current_time - pp.time ≤ cfg.phase2_spike_window)).map PricePoint.price
    if recent.length < cfg.phase2_min_spike_points then false
    else
      let changes := adjAbsDiffs recent
      if changes = [] then false
      else
        let avg := changes.sum / (changes.length : ℚ)
        let cur := |current_price - (recent.getLast?.getD 0)|
        decide (0 < avg) && decide (avg * cfg.phase2_spike_multiplier < cur)

/-- The `phase1_prices` list of `_should_switch_to_atr`: prices of the samples
tagged with the MICRO phase. -/
def microPrices (h : List PricePoint) : List ℚ :=
  (h.filter fun p => p.phase == TradePhase.MICRO).map PricePoint.price

/-- `_should_switch_to_atr`, at wall-clock time `now`. -/
def should_switch_to_atr (cfg : Config) (s : TSLManagerFixed) (now : ℚ) : Bool :=
  if now - s.phase_start_time < cfg.min_phase1_duration then false
  else if s.price_history.length < 10 then false
  else
    let phase1_prices := microPrices s.price_history
    if phase1_prices.length < 8 then false
    else
      let recent := phase1_prices.drop (phase1_prices.length - 8)
      let price_range := listMax recent - listMin recent
      decide (price_range < s.entry_price * cfg.phase1_to_phase3_threshold)

/-- The `true_ranges` list built by the indexed loop of `_calculate_atr`
(`for i in range(-atr_period, 0)` with its two inner guards). -/
def trueRangesSrc (period : ℕ) (h : List ℚ) : List ℚ :=
  (List.range period).filterMap fun (j : ℕ) =>
    let i : ℤ := -(period : ℤ) + (j : ℤ)
    if i.natAbs ≤ h.length then
      let idx : ℤ := (h.length : ℤ) + i
      if 0 < idx then
        let a := h.getD idx.toNat 0
        let b := h.getD (idx.toNat - 1) 0
        some (max a b - min a b)
      else none
    else none

/-- `_calculate_atr`: a no-op unless `atr_period + 1` samples exist and the
true-range list is nonempty. -/
def calculate_atr (cfg : Config) (s : TSLManagerFixed) : TSLManagerFixed :=
  if s.price_history.length < cfg.phase3_atr_period + 1 then s
  else
    let trs := trueRangesSrc cfg.phase3_atr_period (s.price_history.map PricePoint.price)
    if trs = [] then s
    else { s with atr_value := trs.sum / (trs.length : ℚ), atr_calculated := true }

/-- `_apply_atr_trailing`: lazily compute the ATR once, then trail at
`current_price - ATR x multiplier`, adopting only increases of the stop. -/
def apply_atr_trailing (cfg : Config) (s : TSLManagerFixed) (price : ℚ) :
    TSLManagerFixed :=
  let s1 := if s.atr_calculated = false then calculate_atr cfg s else s
  if 0 < s1.atr_value then
    let new_tsl := price - s1.atr_value * cfg.phase3_atr_multiplier
    if s1.pos.tsl < new_tsl then { s1 with pos := { s1.pos with tsl := new_tsl } }
    else s1
  else s1

/-- Result of an order-executor call (`\x7b"success": ..., "avg_price": ...\x7d`). -/
structure OrderResp where
  success : Bool
  avgPrice : Option ℚ
deriving DecidableEq, Repr

/-- One iteration's inputs: the polled price, the wall-clock time, and the
responses the order executor would give to a limit / market order placed on
this tick. -/
structure TickInput where
  price : ℚ
  now : ℚ
  limitResp : Bool
  marketResp : OrderResp
deriving DecidableEq, Repr

/-- Observable actions of one loop iteration: orders sent to the executor,
the cleanup on a successful exit, and the logged warnings/errors. -/
inductive Event
  | placedLimit (side : String) (price : ℚ) (tag : String)
  | placedMarket (side : String) (tag : String)
  | cleanedUp (exit_price : ℚ) (reason : String)
  | exitFailedError
  | warnedInvalidPrice
  | warnedLimitFailed
deriving DecidableEq, Repr

/-- Whether the loop iteration ended with `break` or fell through to the next
`await asyncio.sleep(1)`. -/
inductive LoopSig
  | cont
  | broke
deriving DecidableEq, Repr

/-- Output of one loop iteration. -/
structure TickOut where
  st : TSLManagerFixed
  events : List Event
  sig : LoopSig
deriving DecidableEq, Repr

/-- `exit_side` as computed in `exit_position` / `_exit_at_highest_price`. -/
def exitSide (p : Position) : String :=
  if p.direction = "BUY" ∨ p.direction = "CE" then "SELL" else "BUY"

/-- `_cleanup_position`: drop the engine's reference and stop the loop.  The
`Position` record itself is not touched (in particular `is_active` stays). -/
def cleanup_position (s : TSLManagerFixed) : TSLManagerFixed :=
  { s with attached := false, is_running := false, current_phase := .MICRO }

/-- `exit_position`: market exit; on failure only an error is logged and the
state is left as it was. -/
def exit_position (s : TSLManagerFixed) (reason : String) (resp : OrderResp) :
    TSLManagerFixed × List Event :=
  if s.attached = false ∨ s.pos.is_active = false then (s, [])
  else
    let ev0 := Event.placedMarket (exitSide s.pos) ("EXIT_" ++ reason)
    if resp.success then
      let exit_price := resp.avgPrice.getD s.pos.current_price
      (cleanup_position s, [ev0, Event.cleanedUp exit_price reason])
    else (s, [ev0, Event.exitFailedError])

/-- `_exit_at_highest_price`: IOC limit order at `highest_price * 0.995`;
falls back to `exit_position` with reason `reason + "_MARKET"` on failure. -/
def exit_at_highest_price (s : TSLManagerFixed) (reason : String)
    (limitOk : Bool) (mresp : OrderResp) : TSLManagerFixed × List Event :=
  let ev0 := Event.placedLimit (exitSide s.pos) (s.highest_price * (995/1000))
    ("SPIKE_EXIT_" ++ reason)
  if limitOk then
    (cleanup_position s, [ev0, Event.cleanedUp s.highest_price reason])
  else
    let r := exit_position s (reason ++ "_MARKET") mresp
    (r.1, ev0 :: Event.warnedLimitFailed :: r.2)

/-- The tail of the loop body shared by all phases: the TSL-hit check, then
the emergency large-loss check. -/
def afterPhase (cfg : Config) (s : TSLManagerFixed) (inp : TickInput) : TickOut :=
  if inp.price ≤ s.pos.tsl then
    let r := exit_position s "TSL_HIT" inp.marketResp
    ⟨r.1, r.2, .broke⟩
  else
    let loss_pct := (s.entry_price - inp.price) / s.entry_price * 100
    if cfg.emergency_exit_threshold ≤ loss_pct then
      let r := exit_position s "EMERGENCY" inp.marketResp
      ⟨r.1, r.2, .broke⟩
    else ⟨s, [], .cont⟩

/-- The state updates at the top of a successful loop iteration: store the
current price in the position, record the sample, and update the running
high. -/
def preTick (s : TSLManagerFixed) (inp : TickInput) : TSLManagerFixed :=
  let s1 : TSLManagerFixed := { s with pos := { s.pos with current_price := inp.price } }
  let s2 : TSLManagerFixed :=
    { s1 with price_history := pushPrice s1.price_history inp.price s1.current_phase inp.now }
  if s2.highest_price < inp.price then { s2 with highest_price := inp.price } else s2

/-- The spike-exit branch of the loop: set `spike_detected`, exit at the
highest price, `break`. -/
def spikeStep (s3 : TSLManagerFixed) (reason : String) (inp : TickInput) : TickOut :=
  let r := exit_at_highest_price { s3 with spike_detected := true } reason
    inp.limitResp inp.marketResp
  ⟨r.1, r.2, .broke⟩

/-- The MICRO-phase branch of the loop after the spike check: micro trailing,
then the possible switch to the ATR phase, then the shared exit checks. -/
def microStep (cfg : Config) (s3 : TSLManagerFixed) (inp : TickInput) : TickOut :=
  let s4 := apply_micro_trailing cfg s3 inp.price
  let s5 := if should_switch_to_atr cfg s4 inp.now = true then
      { s4 with current_phase := .ATR, pos := { s4.pos with phase := .ATR },
                phase_start_time := inp.now }
    else s4
  afterPhase cfg s5 inp

/-- One iteration of `_management_loop` (the `while` condition already checked
by the caller): skip non-positive prices, record the sample, update the high,
check spikes (MICRO first, then inside the ATR branch), apply the phase's
trailing rule and the MICRO-to-ATR switch, then the TSL-hit and emergency
exits. -/
def stepTick (cfg : Config) (s : TSLManagerFixed) (inp : TickInput) : TickOut :=
  if inp.price ≤ 0 then ⟨s, [.warnedInvalidPrice], .cont⟩
  else
    let s3 := preTick s inp
    if s3.current_phase = .MICRO then
      if detect_spike cfg s3.price_history inp.price inp.now = true then
        spikeStep s3 "SPIKE_EXIT_PHASE1" inp
      else microStep cfg s3 inp
    else if s3.current_phase = .ATR then
      if detect_spike cfg s3.price_history inp.price inp.now = true then
        spikeStep s3 "SPIKE_EXIT_PHASE3" inp
      else afterPhase cfg (apply_atr_trailing cfg s3 inp.price) inp
    else afterPhase cfg s3 inp

/-- Run the loop over a list of tick inputs, honouring the `while` condition
and `break`. -/
def runTicks (cfg : Config) : TSLManagerFixed → List TickInput → TSLManagerFixed
  | s, [] => s
  | s, inp :: rest =>
    if s.is_running = true ∧ s.attached = true then
      match (stepTick cfg s inp).sig with
      | .broke => (stepTick cfg s inp).st
      | .cont => runTicks cfg (stepTick cfg s inp).st rest
    else s

/-- The list of states the loop passes through (initial state included). -/
def runTrace (cfg : Config) : TSLManagerFixed → List TickInput → List TSLManagerFixed
  | s, [] => [s]
  | s, inp :: rest =>
    if s.is_running = true ∧ s.attached = true then
      match (stepTick cfg s inp).sig with
      | .broke => [s, (stepTick cfg s inp).st]
      | .cont => s :: runTrace cfg (stepTick cfg s inp).st rest
    else [s]

/-- The `tsl` values reached by applying `_apply_micro_trailing` to each
polled price in turn (the MICRO trailing rule in isolation). -/
def microTslTrace (cfg : Config) (s : TSLManagerFixed) : List ℚ → List ℚ
  | [] => []
  | p :: ps =>
    let s2 := apply_micro_trailing cfg s p
    s2.pos.tsl :: microTslTrace cfg s2 ps

/-- The spike predicate exactly as claim C2 words it: at least
`phase2_min_spike_points` samples within the window, a strictly positive
average absolute tick-to-tick change over those in-window samples, and the
most recent tick's absolute change (the last adjacent change, the current
tick being the last recorded sample) above `avg x multiplier`. -/
def spikeSpecClaim (cfg : Config) (hist : List PricePoint)
    (current_time : ℚ) : Bool :=
  let w := (hist.filter fun pp =>
    decide (current_time - pp.time ≤ cfg.phase2_spike_window)).map PricePoint.price
  let changes := adjAbsDiffs w
  decide (cfg.phase2_min_spike_points ≤ w.length) &&
  decide (0 < changes.sum / (changes.length : ℚ)) &&
  decide (changes.sum / (changes.length : ℚ) * cfg.phase2_spike_multiplier
            < changes.getLast?.getD 0)

/-- What `_detect_spike` actually decides, stated over the chronological
in-window run of samples: total history at least 4 samples, at least
`phase2_min_spike_points` samples in the most recent run inside the window,
strictly positive average absolute adjacent change over that run, and the
absolute difference between the current price and the OLDEST in-window sample
(the full span of the window) above `avg x multiplier`. -/
def spikeSpecAmended (cfg : Config) (hist : List PricePoint)
    (current_price current_time : ℚ) : Bool :=
  let w := ((hist.reverse.takeWhile fun pp =>
    decide (current_time - pp.time ≤ cfg.phase2_spike_window)).map PricePoint.price).reverse
  let changes := adjAbsDiffs w
  decide (4 ≤ hist.length) &&
  decide (cfg.phase2_min_spike_points ≤ w.length) &&
  decide (changes ≠ []) &&
  decide (0 < changes.sum / (changes.length : ℚ)) &&
  decide (changes.sum / (changes.length : ℚ) * cfg.phase2_spike_multiplier
            < |current_price - w.head?.getD 0|)

/-- Does an event mention the reason `TIME_EXIT` (as a cleanup reason or in an
order tag)? -/
def mentionsTimeExit : Event → Bool
  | .cleanedUp _ r => r == "TIME_EXIT"
  | .placedMarket _ tag => tag == "EXIT_TIME_EXIT"
  | .placedLimit _ _ tag => tag == "SPIKE_EXIT_TIME_EXIT"
  | _ => false

/-- Did the iteration place a (spike-exit) limit order? -/
def hasSpikeLimit (evs : List Event) : Bool :=
  evs.any fun e => match e with
    | .placedLimit _ _ _ => true
    | _ => false

/-- Is the event the successful-exit cleanup? -/
def isCleanup : Event → Bool
  | .cleanedUp _ _ => true
  | _ => false

/-- Claim C5's statement about `_calculate_atr` and `_apply_atr_trailing`:
no-op below `atr_period + 1` samples; otherwise the ATR is the mean of the
absolute adjacent differences of the last `atr_period + 1` prices; the
candidate stop `price - ATR x multiplier` is adopted only when it raises the
stop. -/
def C5Concl (cfg : Config) (s : TSLManagerFixed) (price : ℚ) : Prop :=
  (s.price_history.length < cfg.phase3_atr_period + 1 → calculate_atr cfg s = s) ∧
  (cfg.phase3_atr_period + 1 ≤ s.price_history.length →
    (calculate_atr cfg s).atr_value =
      (adjAbsDiffs ((s.price_history.map PricePoint.price).drop
          (s.price_history.length - (cfg.phase3_atr_period + 1)))).sum /
        (cfg.phase3_atr_period : ℚ) ∧
    (calculate_atr cfg s).atr_calculated = true ∧
    (calculate_atr cfg s).pos.tsl = s.pos.tsl) ∧
  (s.atr_calculated = false → s.atr_value = 0 →
    s.price_history.length < cfg.phase3_atr_period + 1 →
    apply_atr_trailing cfg s price = s) ∧
  s.pos.tsl ≤ (apply_atr_trailing cfg s price).pos.tsl ∧
  ((apply_atr_trailing cfg s price).pos.tsl = s.pos.tsl ∨
    (apply_atr_trailing cfg s price).pos.tsl =
      price - (if s.atr_calculated = false then calculate_atr cfg s else s).atr_value *
        cfg.phase3_atr_multiplier)

/-- Claim C6 as amended: on a spike exit the limit order goes out at
`highest_price * 0.995` with the spike tag; on success the engine drops its
reference and stops the loop but leaves the `Position` record (including
`is_active`) untouched; on limit failure a market order is the fallback. -/
def C6Concl (s : TSLManagerFixed) (reason : String) (mresp : OrderResp) : Prop :=
  ((exit_at_highest_price s reason true mresp).1.attached = false ∧
   (exit_at_highest_price s reason true mresp).1.is_running = false ∧
   (exit_at_highest_price s reason true mresp).1.pos = s.pos ∧
   (exit_at_highest_price s reason true mresp).2 =
     [Event.placedLimit (exitSide s.pos) (s.highest_price * (995/1000))
        ("SPIKE_EXIT_" ++ reason),
      Event.cleanedUp s.highest_price reason]) ∧
  ((exit_at_highest_price s reason false mresp).2.head? =
     some (Event.placedLimit (exitSide s.pos) (s.highest_price * (995/1000))
       ("SPIKE_EXIT_" ++ reason)) ∧
   Event.placedMarket (exitSide s.pos) ("EXIT_" ++ (reason ++ "_MARKET")) ∈
     (exit_at_highest_price s reason false mresp).2)

/-- Claim C7's statement: when the spike limit order fails and the market
fallback also fails, the state is untouched (position still referenced and
still flagged active), an exit-failure error is surfaced, no cleanup happens,
and any iteration that surfaces that error has left the loop (`break`). -/
def C7Concl (cfg : Config) (s : TSLManagerFixed) (reason : String)
    (mresp : OrderResp) (inp : TickInput) : Prop :=
  (exit_at_highest_price s reason false mresp).1 = s ∧
  (exit_at_highest_price s reason false mresp).1.attached = true ∧
  (exit_at_highest_price s reason false mresp).1.pos.is_active = true ∧
  Event.exitFailedError ∈ (exit_at_highest_price s reason false mresp).2 ∧
  ((exit_at_highest_price s reason false mresp).2.any isCleanup) = false ∧
  (Event.exitFailedError ∈ (stepTick cfg s inp).events →
    (stepTick cfg s inp).sig = .broke)

/-- A long CE position entered at 100, as managed by the engine. -/
def posW : Position :=
  ⟨"NIFTY25JAN20000CE", 1, 100, "CE", 100, 100, .MICRO, true⟩

/-- The engine state right after `start_management posW 0`. -/
def sC3 : TSLManagerFixed := start_management posW 0

/-- A steadily rising price history: one point per half second, +1 per step;
the newest sample (104 at t = 2) is the current tick. -/
def histC2 : List PricePoint :=
  [⟨100, 0, .MICRO⟩, ⟨101, 1/2, .MICRO⟩, ⟨102, 1, .MICRO⟩,
   ⟨103, 3/2, .MICRO⟩, ⟨104, 2, .MICRO⟩]

/-- Ten MICRO-phase samples, price 100 at times 0..9: a quiet market. -/
def histW4 : List PricePoint :=
  [⟨100, 0, .MICRO⟩, ⟨100, 1, .MICRO⟩, ⟨100, 2, .MICRO⟩, ⟨100, 3, .MICRO⟩,
   ⟨100, 4, .MICRO⟩, ⟨100, 5, .MICRO⟩, ⟨100, 6, .MICRO⟩, ⟨100, 7, .MICRO⟩,
   ⟨100, 8, .MICRO⟩, ⟨100, 9, .MICRO⟩]

/-- A MICRO-phase state 12 seconds into management of `posW` over the quiet
history. -/
def sW4 : TSLManagerFixed :=
  ⟨posW, true, true, .MICRO, histW4, 100, 100, 0, false, 0, false, 0, 0⟩

/-- A tick during a quiet market: price 100.4 at t = 12; orders succeed. -/
def inpW4 : TickInput := ⟨100.4, 12, true, ⟨true, none⟩⟩

/-- Small-delta history before a spike: 100.1..100.4 between t = 1.2 and
t = 1.8 after an old sample at t = 0. -/
def histW6 : List PricePoint :=
  [⟨100, 0, .MICRO⟩, ⟨100.1, 1.2, .MICRO⟩, ⟨100.2, 1.4, .MICRO⟩,
   ⟨100.3, 1.6, .MICRO⟩, ⟨100.4, 1.8, .MICRO⟩]

/-- MICRO-phase state managing `posW` over `histW6`, high so far 100.4. -/
def sW6 : TSLManagerFixed :=
  ⟨posW, true, true, .MICRO, histW6, 100, 100.4, 0, false, 0, false, 0, 0⟩

/-- The spike tick: price jumps to 103.5 at t = 3; the limit order fills. -/
def inpW6 : TickInput := ⟨103.5, 3, true, ⟨true, none⟩⟩

/-- The spike tick with both the limit order and the market fallback
failing. -/
def inpW7 : TickInput := ⟨103.5, 3, false, ⟨false, none⟩⟩

/-- The reference config with a 2-period ATR, for concrete ATR evaluation. -/
def cfg5 : Config := { MANAGEMENT_CONFIG with phase3_atr_period := 2 }

/-- An ATR-phase state with three recorded prices 100, 101, 103. -/
def sW5 : TSLManagerFixed :=
  ⟨posW, true, true, .ATR,
   [⟨100, 0, .MICRO⟩, ⟨101, 1, .MICRO⟩, ⟨103, 2, .MICRO⟩],
   100, 103, 0, false, 0, false, 0, 0⟩

/-- An ATR-phase state whose ATR has already been computed (value 3/2). -/
def sW10 : TSLManagerFixed :=
  ⟨posW, true, true, .ATR,
   [⟨100, 0, .MICRO⟩, ⟨101, 1, .MICRO⟩, ⟨103, 2, .MICRO⟩],
   100, 103, 0, false, 3/2, true, 0, 0⟩

/-- A later tick in the ATR phase: price 104 at t = 10, orders succeed. -/
def inpW10 : TickInput := ⟨104, 10, true, ⟨true, none⟩⟩

/-- A failed price poll: the data provider returned -1. -/
def inpBad : TickInput := ⟨-1, 5, true, ⟨true, none⟩⟩

theorem adjAbsDiffs_length (l : List ℚ) : (adjAbsDiffs l).length = l.length - 1 := by
  induction l with
  | nil => simp [adjAbsDiffs]
  | cons a t ih =>
    cases t with
    | nil => simp [adjAbsDiffs]
    | cons b u =>
      simp only [adjAbsDiffs, List.length_cons] at ih ⊢
      omega

theorem adjAbsDiffs_getD (l : List ℚ) (k : ℕ) (hk : k + 1 < l.length) :
    (adjAbsDiffs l).getD k 0 = |l.getD (k + 1) 0 - l.getD k 0| := by
  induction l generalizing k with
  | nil => simp at hk
  | cons a t ih =>
    cases t with
    | nil => simp at hk
    | cons b u =>
      cases k with
      | zero => simp [adjAbsDiffs]
      | succ k =>
        simp only [adjAbsDiffs, List.getD_cons_succ]
        exact ih k (by simpa using hk)

theorem getD_reverse (l : List ℚ) (j : ℕ) (hj : j < l.length) :
    l.reverse.getD j 0 = l.getD (l.length - 1 - j) 0 := by
  have h1 : j < l.reverse.length := by simpa using hj
  have h2 : l.length - 1 - j < l.length := by omega
  rw [List.getD_eq_getElem _ _ h1, List.getD_eq_getElem _ _ h2]
  exact List.getElem_reverse h1

theorem adjAbsDiffs_reverse (l : List ℚ) :
    adjAbsDiffs l.reverse = (adjAbsDiffs l).reverse := by
  apply List.ext_getElem
  · simp [adjAbsDiffs_length]
  · intro i h1 h2
    have hi : i < l.length - 1 := by
      rw [adjAbsDiffs_length, List.length_reverse] at h1
      exact h1
    rw [← List.getD_eq_getElem _ 0 h1, ← List.getD_eq_getElem _ 0 h2]
    rw [adjAbsDiffs_getD l.reverse i (by rw [List.length_reverse]; omega)]
    rw [getD_reverse l (i + 1) (by omega), getD_reverse l i (by omega)]
    rw [getD_reverse (adjAbsDiffs l) i (by rw [adjAbsDiffs_length]; omega)]
    rw [adjAbsDiffs_length]
    rw [adjAbsDiffs_getD l (l.length - 1 - 1 - i) (by omega)]
    have e1 : l.length - 1 - 1 - i + 1 = l.length - 1 - i := by omega
    have e2 : l.length - 1 - 1 - i = l.length - 1 - (i + 1) := by omega
    rw [e1, e2, abs_sub_comm]

theorem filterMap_eq_map_of_some {α β : Type} (g : α → Option β) (f : α → β)
    (l : List α) (hg : ∀ a ∈ l, g a = some (f a)) : l.filterMap g = l.map f := by
  induction l with
  | nil => simp
  | cons a t ih =>
    rw [List.filterMap_cons, hg a (by simp), List.map_cons,
      ih fun x hx => hg x (by simp [hx])]

theorem getD_drop (l : List ℚ) (m j : ℕ) (hj : j < (l.drop m).length) :
    (l.drop m).getD j 0 = l.getD (m + j) 0 := by
  have h2 : m + j < l.length := by simp at hj; omega
  rw [List.getD_eq_getElem _ _ hj, List.getD_eq_getElem _ _ h2]
  exact List.getElem_drop _

theorem trueRangesSrc_eq_map (period : ℕ) (h : List ℚ) (hlen : period + 1 ≤ h.length) :
    trueRangesSrc period h = (List.range period).map fun j =>
      |h.getD (h.length - period + j) 0 - h.getD (h.length - period + j - 1) 0| := by
  unfold trueRangesSrc
  apply filterMap_eq_map_of_some
  intro j hj
  simp only [List.mem_range] at hj
  dsimp only
  have hg1 : ((-(period : ℤ) + (j : ℤ)).natAbs ≤ h.length) := by omega
  rw [if_pos hg1]
  have hg2 : (0 : ℤ) < (h.length : ℤ) + (-(period : ℤ) + (j : ℤ)) := by omega
  rw [if_pos hg2]
  have h3 : ((h.length : ℤ) + (-(period : ℤ) + (j : ℤ))).toNat = h.length - period + j := by
    omega
  rw [h3, max_sub_min_eq_abs, abs_sub_comm]

theorem trueRangesSrc_eq_adj (period : ℕ) (h : List ℚ) (hlen : period + 1 ≤ h.length) :
    trueRangesSrc period h = adjAbsDiffs (h.drop (h.length - (period + 1))) := by
  rw [trueRangesSrc_eq_map period h hlen]
  apply List.ext_getElem
  · simp [adjAbsDiffs_length]
    omega
  · intro i h1 h2
    have hi : i < period := by simpa using h1
    rw [← List.getD_eq_getElem _ 0 h1, ← List.getD_eq_getElem _ 0 h2]
    have hdlen : (h.drop (h.length - (period + 1))).length = period + 1 := by
      simp
      omega
    have hL : ((List.range period).map fun j =>
        |h.getD (h.length - period + j) 0 - h.getD (h.length - period + j - 1) 0|).getD i 0 =
        |h.getD (h.length - period + i) 0 - h.getD (h.length - period + i - 1) 0| := by
      rw [List.getD_eq_getElem _ 0 h1, List.getElem_map, List.getElem_range]
    rw [hL, adjAbsDiffs_getD _ i (by rw [hdlen]; omega)]
    rw [getD_drop h _ (i + 1) (by rw [hdlen]; omega)]
    rw [getD_drop h _ i (by rw [hdlen]; omega)]
    have e1 : h.length - (period + 1) + (i + 1) = h.length - period + i := by omega
    have e2 : h.length - (period + 1) + i = h.length - period + i - 1 := by omega
    rw [e1, e2]

theorem preTick_pos (s : TSLManagerFixed) (inp : TickInput) :
    (preTick s inp).pos = { s.pos with current_price := inp.price } := by
  simp only [preTick]
  split_ifs <;> rfl

theorem preTick_tsl (s : TSLManagerFixed) (inp : TickInput) :
    (preTick s inp).pos.tsl = s.pos.tsl := by
  rw [preTick_pos]

theorem preTick_is_active (s : TSLManagerFixed) (inp : TickInput) :
    (preTick s inp).pos.is_active = s.pos.is_active := by
  rw [preTick_pos]

theorem preTick_current_phase (s : TSLManagerFixed) (inp : TickInput) :
    (preTick s inp).current_phase = s.current_phase := by
  simp only [preTick]
  split_ifs <;> rfl

theorem preTick_price_history (s : TSLManagerFixed) (inp : TickInput) :
    (preTick s inp).price_history =
      pushPrice s.price_history inp.price s.current_phase inp.now := by
  simp only [preTick]
  split_ifs <;> rfl

theorem preTick_entry_price (s : TSLManagerFixed) (inp : TickInput) :
    (preTick s inp).entry_price = s.entry_price := by
  simp only [preTick]
  split_ifs <;> rfl

theorem preTick_phase_start_time (s : TSLManagerFixed) (inp : TickInput) :
    (preTick s inp).phase_start_time = s.phase_start_time := by
  simp only [preTick]
  split_ifs <;> rfl

theorem preTick_atr_value (s : TSLManagerFixed) (inp : TickInput) :
    (preTick s inp).atr_value = s.atr_value := by
  simp only [preTick]
  split_ifs <;> rfl

theorem preTick_atr_calculated (s : TSLManagerFixed) (inp : TickInput) :
    (preTick s inp).atr_calculated = s.atr_calculated := by
  simp only [preTick]
  split_ifs <;> rfl

theorem amt_tsl_mono (cfg : Config) (s : TSLManagerFixed) (price : ℚ) :
    s.pos.tsl ≤ (apply_micro_trailing cfg s price).pos.tsl := by
  simp only [apply_micro_trailing]
  split_ifs with h1 h2 h3 h4 h5
  · exact le_rfl
  · exact le_of_lt h3
  · exact le_rfl
  · exact le_of_lt h5
  · exact le_rfl
  · exact le_rfl

theorem amt_price_history (cfg : Config) (s : TSLManagerFixed) (price : ℚ) :
    (apply_micro_trailing cfg s price).price_history = s.price_history := by
  simp only [apply_micro_trailing]
  split_ifs <;> rfl

theorem amt_entry_price (cfg : Config) (s : TSLManagerFixed) (price : ℚ) :
    (apply_micro_trailing cfg s price).entry_price = s.entry_price := by
  simp only [apply_micro_trailing]
  split_ifs <;> rfl

theorem amt_phase_start_time (cfg : Config) (s : TSLManagerFixed) (price : ℚ) :
    (apply_micro_trailing cfg s price).phase_start_time = s.phase_start_time := by
  simp only [apply_micro_trailing]
  split_ifs <;> rfl

theorem amt_current_phase (cfg : Config) (s : TSLManagerFixed) (price : ℚ) :
    (apply_micro_trailing cfg s price).current_phase = s.current_phase := by
  simp only [apply_micro_trailing]
  split_ifs <;> rfl

theorem amt_atr_value (cfg : Config) (s : TSLManagerFixed) (price : ℚ) :
    (apply_micro_trailing cfg s price).atr_value = s.atr_value := by
  simp only [apply_micro_trailing]
  split_ifs <;> rfl

theorem amt_atr_calculated (cfg : Config) (s : TSLManagerFixed) (price : ℚ) :
    (apply_micro_trailing cfg s price).atr_calculated = s.atr_calculated := by
  simp only [apply_micro_trailing]
  split_ifs <;> rfl

theorem calc_pos (cfg : Config) (s : TSLManagerFixed) :
    (calculate_atr cfg s).pos = s.pos := by
  simp only [calculate_atr]
  split_ifs <;> rfl

theorem aat_tsl_mono (cfg : Config) (s : TSLManagerFixed) (price : ℚ) :
    s.pos.tsl ≤ (apply_atr_trailing cfg s price).pos.tsl := by
  by_cases hc : s.atr_calculated = false
  · simp only [apply_atr_trailing, if_pos hc]
    have hpos := calc_pos cfg s
    split_ifs with h1 h2
    · rw [hpos] at h2
      exact le_of_lt h2
    · simp [hpos]
    · simp [hpos]
  · simp only [apply_atr_trailing, if_neg hc]
    split_ifs with h1 h2
    · exact le_of_lt h2
    · exact le_rfl
    · exact le_rfl

theorem aat_atr_value_frozen (cfg : Config) (s : TSLManagerFixed) (price : ℚ)
    (h : s.atr_calculated = true) :
    (apply_atr_trailing cfg s price).atr_value = s.atr_value := by
  have hc : ¬ (s.atr_calculated = false) := by rw [h]; simp
  simp only [apply_atr_trailing, if_neg hc]
  split_ifs <;> rfl

theorem aat_atr_calculated_frozen (cfg : Config) (s : TSLManagerFixed) (price : ℚ)
    (h : s.atr_calculated = true) :
    (apply_atr_trailing cfg s price).atr_calculated = true := by
  have hc : ¬ (s.atr_calculated = false) := by rw [h]; simp
  simp only [apply_atr_trailing, if_neg hc]
  split_ifs <;> exact h

theorem ep_fst_pos (s : TSLManagerFixed) (r : String) (m : OrderResp) :
    (exit_position s r m).1.pos = s.pos := by
  simp only [exit_position]
  split_ifs <;> rfl

theorem ep_fst_atr_value (s : TSLManagerFixed) (r : String) (m : OrderResp) :
    (exit_position s r m).1.atr_value = s.atr_value := by
  simp only [exit_position]
  split_ifs <;> rfl

theorem ep_fst_atr_calculated (s : TSLManagerFixed) (r : String) (m : OrderResp) :
    (exit_position s r m).1.atr_calculated = s.atr_calculated := by
  simp only [exit_position]
  split_ifs <;> rfl

theorem ep_phase (s : TSLManagerFixed) (r : String) (m : OrderResp) :
    (exit_position s r m).1.current_phase = .MICRO ∨
    (exit_position s r m).1.current_phase = s.current_phase := by
  simp only [exit_position]
  split_ifs
  · right; rfl
  · left; rfl
  · right; rfl

theorem eah_fst_pos (s : TSLManagerFixed) (r : String) (lo : Bool) (m : OrderResp) :
    (exit_at_highest_price s r lo m).1.pos = s.pos := by
  simp only [exit_at_highest_price]
  split_ifs
  · rfl
  · exact ep_fst_pos s _ m

theorem eah_fst_atr_value (s : TSLManagerFixed) (r : String) (lo : Bool) (m : OrderResp) :
    (exit_at_highest_price s r lo m).1.atr_value = s.atr_value := by
  simp only [exit_at_highest_price]
  split_ifs
  · rfl
  · exact ep_fst_atr_value s _ m

theorem eah_fst_atr_calculated (s : TSLManagerFixed) (r : String) (lo : Bool) (m : OrderResp) :
    (exit_at_highest_price s r lo m).1.atr_calculated = s.atr_calculated := by
  simp only [exit_at_highest_price]
  split_ifs
  · rfl
  · exact ep_fst_atr_calculated s _ m

theorem eah_phase (s : TSLManagerFixed) (r : String) (lo : Bool) (m : OrderResp) :
    (exit_at_highest_price s r lo m).1.current_phase = .MICRO ∨
    (exit_at_highest_price s r lo m).1.current_phase = s.current_phase := by
  simp only [exit_at_highest_price]
  split_ifs
  · left; rfl
  · exact ep_phase s _ m

theorem ap_st_pos (cfg : Config) (s : TSLManagerFixed) (inp : TickInput) :
    (afterPhase cfg s inp).st.pos = s.pos := by
  simp only [afterPhase]
  split_ifs
  · exact ep_fst_pos s _ _
  · exact ep_fst_pos s _ _
  · rfl

theorem ap_st_atr_value (cfg : Config) (s : TSLManagerFixed) (inp : TickInput) :
    (afterPhase cfg s inp).st.atr_value = s.atr_value := by
  simp only [afterPhase]
  split_ifs
  · exact ep_fst_atr_value s _ _
  · exact ep_fst_atr_value s _ _
  · rfl

theorem ap_st_atr_calculated (cfg : Config) (s : TSLManagerFixed) (inp : TickInput) :
    (afterPhase cfg s inp).st.atr_calculated = s.atr_calculated := by
  simp only [afterPhase]
  split_ifs
  · exact ep_fst_atr_calculated s _ _
  · exact ep_fst_atr_calculated s _ _
  · rfl

theorem ap_phase (cfg : Config) (s : TSLManagerFixed) (inp : TickInput) :
    (afterPhase cfg s inp).st.current_phase = .MICRO ∨
    (afterPhase cfg s inp).st.current_phase = s.current_phase := by
  simp only [afterPhase]
  split_ifs
  · exact ep_phase s _ _
  · exact ep_phase s _ _
  · right; rfl

theorem ss_st_pos (s3 : TSLManagerFixed) (r : String) (inp : TickInput) :
    (spikeStep s3 r inp).st.pos = s3.pos := by
  simp only [spikeStep]
  exact eah_fst_pos _ r inp.limitResp inp.marketResp

theorem ss_st_atr_value (s3 : TSLManagerFixed) (r : String) (inp : TickInput) :
    (spikeStep s3 r inp).st.atr_value = s3.atr_value := by
  simp only [spikeStep]
  exact eah_fst_atr_value _ r inp.limitResp inp.marketResp

theorem ss_st_atr_calculated (s3 : TSLManagerFixed) (r : String) (inp : TickInput) :
    (spikeStep s3 r inp).st.atr_calculated = s3.atr_calculated := by
  simp only [spikeStep]
  exact eah_fst_atr_calculated _ r inp.limitResp inp.marketResp

theorem ss_phase (s3 : TSLManagerFixed) (r : String) (inp : TickInput) :
    (spikeStep s3 r inp).st.current_phase = .MICRO ∨
    (spikeStep s3 r inp).st.current_phase = s3.current_phase := by
  simp only [spikeStep]
  exact eah_phase _ r inp.limitResp inp.marketResp

theorem ms_tsl_mono (cfg : Config) (s3 : TSLManagerFixed) (inp : TickInput) :
    s3.pos.tsl ≤ (microStep cfg s3 inp).st.pos.tsl := by
  simp only [microStep]
  have h1 := amt_tsl_mono cfg s3 inp.price
  split_ifs with hsw
  · rw [ap_st_pos]
    exact h1
  · rw [ap_st_pos]
    exact h1

theorem ms_st_atr_value (cfg : Config) (s3 : TSLManagerFixed) (inp : TickInput) :
    (microStep cfg s3 inp).st.atr_value = s3.atr_value := by
  simp only [microStep]
  split_ifs with hsw
  · rw [ap_st_atr_value]
    exact amt_atr_value cfg s3 inp.price
  · rw [ap_st_atr_value]
    exact amt_atr_value cfg s3 inp.price

theorem ms_st_atr_calculated (cfg : Config) (s3 : TSLManagerFixed) (inp : TickInput) :
    (microStep cfg s3 inp).st.atr_calculated = s3.atr_calculated := by
  simp only [microStep]
  split_ifs with hsw
  · rw [ap_st_atr_calculated]
    exact amt_atr_calculated cfg s3 inp.price
  · rw [ap_st_atr_calculated]
    exact amt_atr_calculated cfg s3 inp.price

theorem stepTick_tsl_mono (cfg : Config) (s : TSLManagerFixed) (inp : TickInput) :
    s.pos.tsl ≤ (stepTick cfg s inp).st.pos.tsl := by
  simp only [stepTick]
  split_ifs with h0 h1 h2 h3 h4
  · exact le_rfl
  · rw [ss_st_pos, preTick_tsl]
  · rw [← preTick_tsl s inp]
    exact ms_tsl_mono cfg (preTick s inp) inp
  · rw [ss_st_pos, preTick_tsl]
  · rw [ap_st_pos, ← preTick_tsl s inp]
    exact aat_tsl_mono cfg (preTick s inp) inp.price
  · rw [ap_st_pos, preTick_tsl]

theorem stepTick_atr_frozen (cfg : Config) (s : TSLManagerFixed) (inp : TickInput)
    (h : s.atr_calculated = true) :
    (stepTick cfg s inp).st.atr_calculated = true ∧
    (stepTick cfg s inp).st.atr_value = s.atr_value := by
  have hpc : (preTick s inp).atr_calculated = true := by
    rw [preTick_atr_calculated]
    exact h
  have hpv : (preTick s inp).atr_value = s.atr_value := preTick_atr_value s inp
  simp only [stepTick]
  split_ifs with h0 h1 h2 h3 h4
  · exact ⟨h, rfl⟩
  · exact ⟨by rw [ss_st_atr_calculated]; exact hpc, by rw [ss_st_atr_value]; exact hpv⟩
  · exact ⟨by rw [ms_st_atr_calculated]; exact hpc, by rw [ms_st_atr_value]; exact hpv⟩
  · exact ⟨by rw [ss_st_atr_calculated]; exact hpc, by rw [ss_st_atr_value]; exact hpv⟩
  · refine ⟨?_, ?_⟩
    · rw [ap_st_atr_calculated]
      exact aat_atr_calculated_frozen cfg (preTick s inp) inp.price hpc
    · rw [ap_st_atr_value, aat_atr_value_frozen cfg (preTick s inp) inp.price hpc]
      exact hpv
  · exact ⟨by rw [ap_st_atr_calculated]; exact hpc, by rw [ap_st_atr_value]; exact hpv⟩

theorem runTrace_head (cfg : Config) (s : TSLManagerFixed) (ticks : List TickInput) :
    (runTrace cfg s ticks).head? = some s := by
  cases ticks with
  | nil => rfl
  | cons inp rest =>
    simp only [runTrace]
    split_ifs with h
    · cases hsig : (stepTick cfg s inp).sig <;> simp [hsig]
    · rfl

/-- C1: for every starting state and every sequence of tick inputs, the `tsl`
values along the loop's trace are non-decreasing: each write to `tsl` (the
MICRO stair-step, the MICRO ceiling lock, and the ATR trail) is guarded by
`new value > current value`, and the exit paths never touch `tsl`.  In
particular the first ATR-phase stop is at least the MICRO-inherited one. -/
theorem C1_tsl_monotone (cfg : Config) (s : TSLManagerFixed) (ticks : List TickInput) :
    List.Chain' (fun a b : TSLManagerFixed => a.pos.tsl ≤ b.pos.tsl)
      (runTrace cfg s ticks) := by
  induction ticks generalizing s with
  | nil => simp [runTrace]
  | cons inp rest ih =>
    simp only [runTrace]
    split_ifs with h
    · cases hsig : (stepTick cfg s inp).sig
      · simp only
        rw [List.chain'_cons']
        refine ⟨?_, ih _⟩
        intro b hb
        rw [runTrace_head] at hb
        simp only [Option.mem_def, Option.some_inj] at hb
        subst hb
        exact stepTick_tsl_mono cfg s inp
      · simp only
        rw [List.chain'_cons']
        refine ⟨?_, by simp⟩
        intro b hb
        simp only [List.head?_cons, Option.mem_def, Option.some_inj] at hb
        subst hb
        exact stepTick_tsl_mono cfg s inp
    · simp

/-- C10: once `atr_calculated` is set, no later tick of the session recomputes
the ATR: `_apply_atr_trailing` only calls `_calculate_atr` when
`atr_calculated` is false, and nothing else writes `atr_value`, so the
trailing distance stays frozen at the first successfully computed value. -/
theorem C10_atr_frozen (cfg : Config) (s : TSLManagerFixed) (ticks : List TickInput)
    (h : s.atr_calculated = true) :
    (runTicks cfg s ticks).atr_calculated = true ∧
    (runTicks cfg s ticks).atr_value = s.atr_value := by
  induction ticks generalizing s with
  | nil => exact ⟨h, rfl⟩
  | cons inp rest ih =>
    simp only [runTicks]
    split_ifs with hrun
    · cases hsig : (stepTick cfg s inp).sig
      · simp only
        obtain ⟨hc, hv⟩ := stepTick_atr_frozen cfg s inp h
        obtain ⟨ihc, ihv⟩ := ih _ hc
        exact ⟨ihc, by rw [ihv, hv]⟩
      · simp only
        exact stepTick_atr_frozen cfg s inp h
    · exact ⟨h, rfl⟩

/-- Witness for C10 at a concrete ATR-phase state with `atr_calculated`. -/
theorem C10_atr_frozen_witness :
    sW10.atr_calculated = true ∧
    ((runTicks MANAGEMENT_CONFIG sW10 [inpW10]).atr_calculated = true ∧
     (runTicks MANAGEMENT_CONFIG sW10 [inpW10]).atr_value = sW10.atr_value) :=
  ⟨rfl, C10_atr_frozen MANAGEMENT_CONFIG sW10 [inpW10] rfl⟩

/-- C9: a non-positive polled price is skipped before any state is touched:
the tick leaves the whole manager state unchanged, only logs a warning, and
the loop continues with the next interval. -/
theorem C9_bad_tick_skipped (cfg : Config) (s : TSLManagerFixed) (inp : TickInput)
    (h : inp.price ≤ 0) :
    stepTick cfg s inp = ⟨s, [Event.warnedInvalidPrice], LoopSig.cont⟩ := by
  simp only [stepTick, if_pos h]

/-- Witness for C9: the tick with polled price -1 is skipped. -/
theorem C9_bad_tick_skipped_witness :
    inpBad.price ≤ 0 ∧
    stepTick MANAGEMENT_CONFIG sW4 inpBad = ⟨sW4, [Event.warnedInvalidPrice], LoopSig.cont⟩ :=
  ⟨by norm_num [inpBad], C9_bad_tick_skipped MANAGEMENT_CONFIG sW4 inpBad (by norm_num [inpBad])⟩

/-- C3: starting management of a position entered at 100 with the reference
config (min_profit_to_trail = 0.5, phase1_max_trail = 5), the MICRO trailing
rule applied to the polled prices [100,101,102,103,104,105,106] yields the
stop sequence [100,100,101,102,103,104,104], starting from tsl = entry. -/
theorem C3_micro_sequence :
    sC3.pos.tsl = 100 ∧
    microTslTrace MANAGEMENT_CONFIG sC3 [100, 101, 102, 103, 104, 105, 106] =
      [100, 100, 101, 102, 103, 104, 104] := by
  constructor
  · norm_num [sC3, start_management, posW]
  · norm_num [microTslTrace, apply_micro_trailing, pyInt, sC3, start_management, posW,
      pushPrice, MANAGEMENT_CONFIG]

theorem hasSpikeLimit_ep (s : TSLManagerFixed) (r : String) (m : OrderResp) :
    hasSpikeLimit (exit_position s r m).2 = false := by
  simp only [exit_position]
  split_ifs <;> rfl

theorem hasSpikeLimit_ss (s3 : TSLManagerFixed) (r : String) (inp : TickInput) :
    hasSpikeLimit (spikeStep s3 r inp).events = true := by
  simp only [spikeStep, exit_at_highest_price]
  split_ifs <;> rfl

theorem hasSpikeLimit_ap (cfg : Config) (s : TSLManagerFixed) (inp : TickInput) :
    hasSpikeLimit (afterPhase cfg s inp).events = false := by
  simp only [afterPhase]
  split_ifs
  · exact hasSpikeLimit_ep s _ _
  · exact hasSpikeLimit_ep s _ _
  · rfl

theorem hasSpikeLimit_ms (cfg : Config) (s3 : TSLManagerFixed) (inp : TickInput) :
    hasSpikeLimit (microStep cfg s3 inp).events = false := by
  simp only [microStep]
  split_ifs <;> exact hasSpikeLimit_ap cfg _ inp

/-- C2 (amended): `_detect_spike` decides exactly: total history at least 4,
at least `phase2_min_spike_points` samples in the most recent in-window run,
strictly positive average absolute adjacent change over that run, and the span
from the OLDEST in-window sample to the current price (not the last single
tick change) above `avg x multiplier`; and the loop consults it on every tick
with a valid price, in both the MICRO and ATR phases and only there. -/
theorem C2_spike_characterization :
    (∀ (cfg : Config) (hist : List PricePoint) (price now : ℚ),
      detect_spike cfg hist price now = spikeSpecAmended cfg hist price now) ∧
    (∀ (cfg : Config) (s : TSLManagerFixed) (inp : TickInput),
      hasSpikeLimit (stepTick cfg s inp).events =
        (decide (0 < inp.price) &&
         ((s.current_phase == TradePhase.MICRO || s.current_phase == TradePhase.ATR) &&
          detect_spike cfg (pushPrice s.price_history inp.price s.current_phase inp.now)
            inp.price inp.now))) := by
  constructor
  · intro cfg hist price now
    simp only [detect_spike, spikeSpecAmended]
    by_cases h4 : hist.length < 4
    · rw [if_pos h4]
      have h4d : decide (4 ≤ hist.length) = false := by
        simp only [decide_eq_false_iff_not]
        omega
      rw [h4d]
      simp
    · rw [if_neg h4]
      have h4d : decide (4 ≤ hist.length) = true := by
        simp only [decide_eq_true_eq]
        omega
      rw [h4d, Bool.true_and]
      set r := (hist.reverse.takeWhile fun pp =>
        decide (now - pp.time ≤ cfg.phase2_spike_window)).map PricePoint.price with hr
      have hwlen : r.reverse.length = r.length := List.length_reverse r
      by_cases hm : r.length < cfg.phase2_min_spike_points
      · rw [if_pos hm]
        have hmd : decide (cfg.phase2_min_spike_points ≤ r.reverse.length) = false := by
          rw [hwlen]
          simp only [decide_eq_false_iff_not]
          omega
        rw [hmd]
        simp
      · rw [if_neg hm]
        have hmd : decide (cfg.phase2_min_spike_points ≤ r.reverse.length) = true := by
          rw [hwlen]
          simp only [decide_eq_true_eq]
          omega
        rw [hmd, Bool.true_and]
        have hchg : adjAbsDiffs r.reverse = (adjAbsDiffs r).reverse := adjAbsDiffs_reverse r
        by_cases hc : adjAbsDiffs r = []
        · rw [if_pos hc]
          have hie : decide (adjAbsDiffs r.reverse ≠ []) = false := by
            rw [hchg, hc]
            rfl
          rw [hie]
          simp
        · rw [if_neg hc]
          have hie : decide (adjAbsDiffs r.reverse ≠ []) = true := by
            rw [hchg]
            simp [hc]
          rw [hie, Bool.true_and, hchg, List.sum_reverse, List.length_reverse,
            List.head?_reverse]
  · intro cfg s inp
    simp only [stepTick]
    split_ifs with h0 h1 h2 h3 h4
    · have hplt : decide ((0 : ℚ) < inp.price) = false := by
        simp only [decide_eq_false_iff_not]
        exact not_lt.mpr h0
      rw [hplt, Bool.false_and]
      rfl
    · have hplt : decide ((0 : ℚ) < inp.price) = true := by
        simp only [decide_eq_true_eq]
        exact not_le.mp h0
      have hmic : s.current_phase = .MICRO := by
        rw [← preTick_current_phase s inp]
        exact h1
      have hdet : detect_spike cfg
          (pushPrice s.price_history inp.price s.current_phase inp.now) inp.price inp.now
          = true := by
        rw [← preTick_price_history s inp]
        exact h2
      rw [hasSpikeLimit_ss, hplt, hdet, hmic]
      rfl
    · have hdet : detect_spike cfg
          (pushPrice s.price_history inp.price s.current_phase inp.now) inp.price inp.now
          = false := by
        rw [← preTick_price_history s inp]
        simpa using h2
      rw [hasSpikeLimit_ms, hdet]
      simp
    · have hplt : decide ((0 : ℚ) < inp.price) = true := by
        simp only [decide_eq_true_eq]
        exact not_le.mp h0
      have hatr : s.current_phase = .ATR := by
        rw [← preTick_current_phase s inp]
        exact h3
      have hdet : detect_spike cfg
          (pushPrice s.price_history inp.price s.current_phase inp.now) inp.price inp.now
          = true := by
        rw [← preTick_price_history s inp]
        exact h4
      rw [hasSpikeLimit_ss, hplt, hdet, hatr]
      rfl
    · have hdet : detect_spike cfg
          (pushPrice s.price_history inp.price s.current_phase inp.now) inp.price inp.now
          = false := by
        rw [← preTick_price_history s inp]
        simpa using h4
      rw [hasSpikeLimit_ap, hdet]
      simp
    · have hspike : s.current_phase = .SPIKE := by
        have hm : s.current_phase ≠ .MICRO := by
          rw [← preTick_current_phase s inp]
          exact h1
        have ha : s.current_phase ≠ .ATR := by
          rw [← preTick_current_phase s inp]
          exact h3
        cases hph : s.current_phase
        · exact absurd hph hm
        · rfl
        · exact absurd hph ha
      rw [hasSpikeLimit_ap, hspike]
      simp

/-- Counterexample to C2 as stated: a steady rise of one point per half
second (history `histC2`, current tick 104 at t = 2) is flagged as a spike by
`_detect_spike` (the 2-second span 4 exceeds 3 x the average change 1), while
the claim's predicate (most recent tick change 1 versus 3 x average 1) says
no spike. -/
theorem C2_counterexample :
    detect_spike MANAGEMENT_CONFIG histC2 104 2 = true ∧
    spikeSpecClaim MANAGEMENT_CONFIG histC2 2 = false := by
  constructor
  · norm_num [detect_spike, histC2, MANAGEMENT_CONFIG, adjAbsDiffs, List.takeWhile,
      List.cons_ne_nil]
  · norm_num [spikeSpecClaim, histC2, MANAGEMENT_CONFIG, adjAbsDiffs, List.filter]

theorem should_switch_true_elim (cfg : Config) (s : TSLManagerFixed) (now : ℚ)
    (h : should_switch_to_atr cfg s now = true) :
    cfg.min_phase1_duration ≤ now - s.phase_start_time ∧
    8 ≤ (microPrices s.price_history).length ∧
    listMax ((microPrices s.price_history).drop ((microPrices s.price_history).length - 8)) -
      listMin ((microPrices s.price_history).drop ((microPrices s.price_history).length - 8)) <
      s.entry_price * cfg.phase1_to_phase3_threshold := by
  simp only [should_switch_to_atr] at h
  split_ifs at h with h1 h2 h3
  exact ⟨le_of_not_lt h1, by omega, of_decide_eq_true h⟩

/-- C4: on a MICRO-phase tick, if the step switches the phase to ATR, then
the elapsed MICRO time is at least `min_phase1_duration`, at least 8
MICRO-tagged samples exist in the (just-updated) history, and the range of
the most recent 8 MICRO samples is below
`entry_price x phase1_to_phase3_threshold`; contrapositively, whenever any
condition fails the phase does not switch. -/
theorem C4_switch_only_if (cfg : Config) (s : TSLManagerFixed) (inp : TickInput)
    (hmic : s.current_phase = .MICRO)
    (hsw : (stepTick cfg s inp).st.current_phase = .ATR) :
    cfg.min_phase1_duration ≤ inp.now - s.phase_start_time ∧
    8 ≤ (microPrices (pushPrice s.price_history inp.price s.current_phase inp.now)).length ∧
    listMax ((microPrices (pushPrice s.price_history inp.price s.current_phase inp.now)).drop
        ((microPrices (pushPrice s.price_history inp.price s.current_phase inp.now)).length - 8)) -
      listMin ((microPrices (pushPrice s.price_history inp.price s.current_phase inp.now)).drop
        ((microPrices (pushPrice s.price_history inp.price s.current_phase inp.now)).length - 8)) <
      s.entry_price * cfg.phase1_to_phase3_threshold := by
  have hpre : (preTick s inp).current_phase = .MICRO := by
    rw [preTick_current_phase]
    exact hmic
  simp only [stepTick] at hsw
  split_ifs at hsw with h0 h1
  · have hsw2 : s.current_phase = TradePhase.ATR := hsw
    rw [hmic] at hsw2
    exact absurd hsw2 (by decide)
  · rcases ss_phase (preTick s inp) "SPIKE_EXIT_PHASE1" inp with hp | hp
    · rw [hsw] at hp
      exact absurd hp (by decide)
    · rw [hpre] at hp
      rw [hsw] at hp
      exact absurd hp (by decide)
  · simp only [microStep] at hsw
    split_ifs at hsw with hswitch
    · have h5 := should_switch_true_elim cfg
        (apply_micro_trailing cfg (preTick s inp) inp.price) inp.now hswitch
      rw [amt_phase_start_time, amt_price_history, amt_entry_price,
        preTick_phase_start_time, preTick_price_history, preTick_entry_price] at h5
      exact h5
    · rcases ap_phase cfg (apply_micro_trailing cfg (preTick s inp) inp.price) inp with hp | hp
      · rw [hsw] at hp
        exact absurd hp (by decide)
      · rw [amt_current_phase, hpre] at hp
        rw [hsw] at hp
        exact absurd hp (by decide)

/-- Witness for C4: a quiet 12-second MICRO session whose next tick switches
to the ATR phase, and the three switch conditions hold there. -/
theorem C4_switch_only_if_witness :
    sW4.current_phase = .MICRO ∧
    (stepTick MANAGEMENT_CONFIG sW4 inpW4).st.current_phase = .ATR ∧
    (MANAGEMENT_CONFIG.min_phase1_duration ≤ inpW4.now - sW4.phase_start_time ∧
     8 ≤ (microPrices (pushPrice sW4.price_history inpW4.price sW4.current_phase inpW4.now)).length ∧
     listMax ((microPrices (pushPrice sW4.price_history inpW4.price sW4.current_phase inpW4.now)).drop
         ((microPrices (pushPrice sW4.price_history inpW4.price sW4.current_phase inpW4.now)).length - 8)) -
       listMin ((microPrices (pushPrice sW4.price_history inpW4.price sW4.current_phase inpW4.now)).drop
         ((microPrices (pushPrice sW4.price_history inpW4.price sW4.current_phase inpW4.now)).length - 8)) <
       sW4.entry_price * MANAGEMENT_CONFIG.phase1_to_phase3_threshold) := by
  have hstep : (stepTick MANAGEMENT_CONFIG sW4 inpW4).st.current_phase = .ATR := by
    norm_num [stepTick, preTick, microStep, afterPhase, spikeStep, detect_spike,
      should_switch_to_atr, apply_micro_trailing, pyInt, microPrices, listMax, listMin,
      exit_position, exit_at_highest_price, cleanup_position, exitSide, pushPrice,
      sW4, inpW4, posW, histW4, MANAGEMENT_CONFIG, adjAbsDiffs, List.takeWhile,
      List.cons_ne_nil, List.filter]
  exact ⟨rfl, hstep, C4_switch_only_if MANAGEMENT_CONFIG sW4 inpW4 rfl hstep⟩

/-- C5: `_calculate_atr` is a no-op below `atr_period + 1` samples (so ATR
trailing leaves the MICRO-derived stop in force until then); with enough
samples the ATR equals the mean of the absolute adjacent differences of the
last `atr_period + 1` recorded prices; and the ATR candidate stop
`price - ATR x multiplier` is adopted only when it raises the stop. -/
theorem C5_atr_rule (cfg : Config) (s : TSLManagerFixed) (price : ℚ)
    (hper : 0 < cfg.phase3_atr_period) : C5Concl cfg s price := by
  refine ⟨?_, ?_, ?_, aat_tsl_mono cfg s price, ?_⟩
  · intro h
    simp only [calculate_atr, if_pos h]
  · intro hlen
    have hmap : (s.price_history.map PricePoint.price).length = s.price_history.length :=
      List.length_map _ _
    have htr := trueRangesSrc_eq_adj cfg.phase3_atr_period
      (s.price_history.map PricePoint.price) (by rw [hmap]; exact hlen)
    rw [hmap] at htr
    have hlen_tr : (trueRangesSrc cfg.phase3_atr_period
        (s.price_history.map PricePoint.price)).length = cfg.phase3_atr_period := by
      rw [htr, adjAbsDiffs_length, List.length_drop, hmap]
      omega
    have hne : trueRangesSrc cfg.phase3_atr_period
        (s.price_history.map PricePoint.price) ≠ [] := by
      intro h0
      rw [h0] at hlen_tr
      simp at hlen_tr
      omega
    simp only [calculate_atr,
      if_neg (by omega : ¬ s.price_history.length < cfg.phase3_atr_period + 1)]
    rw [if_neg hne]
    refine ⟨?_, rfl, rfl⟩
    show (trueRangesSrc cfg.phase3_atr_period (s.price_history.map PricePoint.price)).sum /
        ((trueRangesSrc cfg.phase3_atr_period
          (s.price_history.map PricePoint.price)).length : ℚ) = _
    rw [hlen_tr, htr]
  · intro h1 h2 h3
    have hc : calculate_atr cfg s = s := by
      simp only [calculate_atr, if_pos h3]
    simp only [apply_atr_trailing, if_pos h1, hc]
    rw [if_neg (by rw [h2]; exact lt_irrefl 0)]
  · by_cases hc : s.atr_calculated = false
    · simp only [apply_atr_trailing, if_pos hc]
      split_ifs with h1 h2
      · right
        rfl
      · left
        rw [calc_pos]
      · left
        rw [calc_pos]
    · simp only [apply_atr_trailing, if_neg hc]
      split_ifs with h1 h2
      · right
        rfl
      · left
        rfl
      · left
        rfl

/-- Witness for C5 with a 2-period ATR over prices 100, 101, 103. -/
theorem C5_atr_rule_witness : 0 < cfg5.phase3_atr_period ∧ C5Concl cfg5 sW5 105 :=
  ⟨by norm_num [cfg5, MANAGEMENT_CONFIG],
   C5_atr_rule cfg5 sW5 105 (by norm_num [cfg5, MANAGEMENT_CONFIG])⟩

/-- C6 (amended): the spike exit places the IOC limit order at
`highest_price * 0.995` with the spike tag; on success the engine releases
the position (reference dropped, loop stopped) but leaves the `Position`
record itself untouched, so `is_active` keeps its old value; on limit failure
it falls back to a market order. -/
theorem C6_spike_exit_amended (s : TSLManagerFixed) (reason : String) (mresp : OrderResp)
    (h1 : s.attached = true) (h2 : s.pos.is_active = true) :
    C6Concl s reason mresp := by
  have hguard : ¬ (s.attached = false ∨ s.pos.is_active = false) := by
    rw [h1, h2]
    simp
  refine ⟨⟨rfl, rfl, rfl, rfl⟩, rfl, ?_⟩
  simp only [exit_at_highest_price]
  rw [if_neg (by simp : ¬ ((false : Bool) = true))]
  simp only [exit_position, if_neg hguard]
  split_ifs with hresp
  · simp
  · simp

/-- Counterexample to C6 as stated: in the spec's end-to-end scenario (entry
100, spike to 103.5 at t = 3, limit order succeeds), the engine places the
limit exit at 103.5 x 0.995 = 102.9825 and releases the position (clears its
reference, stops the loop), but the `Position`'s `is_active` flag is left
`true` — the position is never marked inactive. -/
theorem C6_counterexample :
    hasSpikeLimit (stepTick MANAGEMENT_CONFIG sW6 inpW6).events = true ∧
    (stepTick MANAGEMENT_CONFIG sW6 inpW6).events =
      [Event.placedLimit "SELL" (41193/400) "SPIKE_EXIT_SPIKE_EXIT_PHASE1",
       Event.cleanedUp (207/2) "SPIKE_EXIT_PHASE1"] ∧
    (stepTick MANAGEMENT_CONFIG sW6 inpW6).st.attached = false ∧
    (stepTick MANAGEMENT_CONFIG sW6 inpW6).st.is_running = false ∧
    (stepTick MANAGEMENT_CONFIG sW6 inpW6).st.pos.is_active = true := by
  have hph : (preTick sW6 inpW6).current_phase = TradePhase.MICRO := by
    rw [preTick_current_phase]
    rfl
  have hdet : detect_spike MANAGEMENT_CONFIG (preTick sW6 inpW6).price_history
      inpW6.price inpW6.now = true := by
    rw [preTick_price_history]
    norm_num [detect_spike, pushPrice, sW6, inpW6, histW6, posW, MANAGEMENT_CONFIG,
      adjAbsDiffs, List.takeWhile, List.cons_ne_nil, abs_of_pos]
  have hstep : stepTick MANAGEMENT_CONFIG sW6 inpW6 =
      spikeStep (preTick sW6 inpW6) "SPIKE_EXIT_PHASE1" inpW6 := by
    simp only [stepTick, if_neg (by norm_num [inpW6] : ¬ inpW6.price ≤ 0),
      if_pos hph, if_pos hdet]
  rw [hstep]
  norm_num [spikeStep, exit_at_highest_price, cleanup_position, exitSide,
    hasSpikeLimit, preTick, pushPrice, sW6, inpW6, posW, histW6]
  rfl

/-- Witness for the amended C6 with the limit order failing (market
fallback). -/
theorem C6_spike_exit_amended_witness :
    sW6.attached = true ∧ sW6.pos.is_active = true ∧
    C6Concl sW6 "SPIKE_EXIT_PHASE1" ⟨false, none⟩ :=
  ⟨rfl, rfl, C6_spike_exit_amended sW6 "SPIKE_EXIT_PHASE1" ⟨false, none⟩ rfl rfl⟩

theorem ap_err_broke (cfg : Config) (s : TSLManagerFixed) (inp : TickInput) :
    Event.exitFailedError ∈ (afterPhase cfg s inp).events →
    (afterPhase cfg s inp).sig = .broke := by
  simp only [afterPhase]
  split_ifs
  · intro _
    rfl
  · intro _
    rfl
  · intro hmem
    simp at hmem

theorem err_mem_broke (cfg : Config) (s : TSLManagerFixed) (inp : TickInput) :
    Event.exitFailedError ∈ (stepTick cfg s inp).events →
    (stepTick cfg s inp).sig = .broke := by
  simp only [stepTick]
  split_ifs
  · intro hmem
    simp at hmem
  · intro _
    rfl
  · simp only [microStep]
    exact ap_err_broke cfg _ inp
  · intro _
    rfl
  · exact ap_err_broke cfg _ inp
  · exact ap_err_broke cfg _ inp

/-- C7: if the spike limit order fails and the market fallback also fails,
the engine keeps the position attached and still flagged active (nothing is
dropped or cleaned up), surfaces the exit-failure error, and the loop breaks
instead of resuming trailing. -/
theorem C7_exit_double_failure (cfg : Config) (s : TSLManagerFixed) (reason : String)
    (mresp : OrderResp) (inp : TickInput)
    (h1 : s.attached = true) (h2 : s.pos.is_active = true)
    (hm : mresp.success = false) :
    C7Concl cfg s reason mresp inp := by
  have hguard : ¬ (s.attached = false ∨ s.pos.is_active = false) := by
    rw [h1, h2]
    simp
  have hep : exit_position s (reason ++ "_MARKET") mresp =
      (s, [Event.placedMarket (exitSide s.pos) ("EXIT_" ++ (reason ++ "_MARKET")),
           Event.exitFailedError]) := by
    simp only [exit_position, if_neg hguard, hm]
    rw [if_neg (by simp : ¬ ((false : Bool) = true))]
  have heah : exit_at_highest_price s reason false mresp =
      (s, Event.placedLimit (exitSide s.pos) (s.highest_price * (995/1000))
            ("SPIKE_EXIT_" ++ reason) ::
          Event.warnedLimitFailed ::
          [Event.placedMarket (exitSide s.pos) ("EXIT_" ++ (reason ++ "_MARKET")),
           Event.exitFailedError]) := by
    simp only [exit_at_highest_price]
    rw [if_neg (by simp : ¬ ((false : Bool) = true)), hep]
  refine ⟨?_, ?_, ?_, ?_, ?_, err_mem_broke cfg s inp⟩
  · rw [heah]
  · rw [heah]
    exact h1
  · rw [heah]
    exact h2
  · rw [heah]
    simp
  · rw [heah]
    rfl

/-- Witness for C7 at the spike scenario with both orders failing. -/
theorem C7_exit_double_failure_witness :
    sW6.attached = true ∧ sW6.pos.is_active = true ∧
    (⟨false, none⟩ : OrderResp).success = false ∧
    C7Concl MANAGEMENT_CONFIG sW6 "SPIKE_EXIT_PHASE1" ⟨false, none⟩ inpW7 :=
  ⟨rfl, rfl, rfl,
   C7_exit_double_failure MANAGEMENT_CONFIG sW6 "SPIKE_EXIT_PHASE1" ⟨false, none⟩ inpW7
     rfl rfl rfl⟩

theorem mte_ep (s : TSLManagerFixed) (r : String) (m : OrderResp)
    (hr : (r == "TIME_EXIT") = false)
    (ht : (("EXIT_" ++ r) == "EXIT_TIME_EXIT") = false) :
    ((exit_position s r m).2.all fun e => !(mentionsTimeExit e)) = true := by
  simp only [exit_position]
  split_ifs <;> simp [mentionsTimeExit, hr, ht]

theorem mte_eah (s : TSLManagerFixed) (r : String) (lo : Bool) (m : OrderResp)
    (hlim : (("SPIKE_EXIT_" ++ r) == "SPIKE_EXIT_TIME_EXIT") = false)
    (hcl : (r == "TIME_EXIT") = false)
    (hrm : ((r ++ "_MARKET") == "TIME_EXIT") = false)
    (htm : (("EXIT_" ++ (r ++ "_MARKET")) == "EXIT_TIME_EXIT") = false) :
    ((exit_at_highest_price s r lo m).2.all fun e => !(mentionsTimeExit e)) = true := by
  simp only [exit_at_highest_price]
  split_ifs
  · simp [mentionsTimeExit, hlim, hcl]
  · simp only [List.all_cons, mentionsTimeExit, hlim, Bool.not_false, Bool.true_and]
    exact mte_ep s _ m hrm htm

theorem mte_ap (cfg : Config) (s : TSLManagerFixed) (inp : TickInput) :
    ((afterPhase cfg s inp).events.all fun e => !(mentionsTimeExit e)) = true := by
  simp only [afterPhase]
  split_ifs
  · exact mte_ep s _ _ (by simp) (by simp)
  · exact mte_ep s _ _ (by simp) (by simp)
  · rfl

/-- C8: no loop iteration ever mentions the exit reason `TIME_EXIT` (in a
cleanup, a market-order tag, or a limit-order tag), and `MANAGEMENT_CONFIG`
defines no `max_hold_time` key: the fixed engine has no hold-time cap at
all. -/
theorem C8_no_time_exit :
    (∀ (cfg : Config) (s : TSLManagerFixed) (inp : TickInput),
      ((stepTick cfg s inp).events.all fun e => !(mentionsTimeExit e)) = true) ∧
    "max_hold_time" ∉ managementConfigKeys := by
  constructor
  · intro cfg s inp
    simp only [stepTick]
    split_ifs
    · rfl
    · simp only [spikeStep]
      exact mte_eah _ _ _ _ (by simp) (by simp) (by simp) (by simp)
    · simp only [microStep]
      exact mte_ap cfg _ inp
    · simp only [spikeStep]
      exact mte_eah _ _ _ _ (by simp) (by simp) (by simp) (by simp)
    · exact mte_ap cfg _ inp
    · exact mte_ap cfg _ inp
  · simp [managementConfigKeys]

end Microscalper
